import Mathlib

/-!
Shallow embedding of the chess move-validation core of the repository
(`Chess Game/design.py`): board representation, the per-piece movement
rules, and the turn/capture state machine of `Game.make_move`, together
with theorems settling the specification claims about them.

Cells are modelled by their coordinates; a board is the 8×8 grid of
optional pieces (a list of row lists, as in the source).  Mutation of a
cell's `piece` field becomes a functional update of the grid.  Python
list indexing (negative indices wrap, out-of-range raises `IndexError`)
is modelled by `resolveIdx` / `cellAt?`, with `none` standing for the
raised exception.
-/

namespace Chess

inductive PieceKind where
  | rook
  | knight
  | bishop
  | king
  | queen
  | pawn
deriving DecidableEq

/-- A piece value: its color, its kind (the Python subclass), and the
`is_killed` bookkeeping flag set when the piece is captured. -/
structure Piece where
  is_white : Bool
  kind : PieceKind
  is_killed : Bool
deriving DecidableEq

/-- The board grid: 8 rows of 8 optional pieces (`Board.board` in the
source, with each `Cell`'s occupant kept and its fixed coordinates
implicit in the position). -/
abbrev Board := List (List (Option Piece))

/-- The occupant of the cell at row `r`, column `c` (the `piece` field of
`board[r][c]`); `none` for an empty cell. -/
def cell (b : Board) (r c : Nat) : Option Piece :=
  ((b[r]?.getD [])[c]?).getD none

/-- Assignment `board[r][c].piece = p` as a functional update. -/
def setPiece (b : Board) (r c : Nat) (p : Option Piece) : Board :=
  b.set r ((b[r]?.getD []).set c p)

/-- Python list indexing for the 8-element board lists: an index in
`[0,8)` is used as is, an index in `[-8,0)` wraps to `8 + i`, and any
other index raises `IndexError` (modelled by `none`). -/
def resolveIdx (i : Int) : Option Nat :=
  if 0 ≤ i ∧ i < 8 then some i.toNat
  else if -8 ≤ i ∧ i < 0 then some (i + 8).toNat
  else none

/-- Fetching the cell `board[r][c]` itself: `none` when the grid has no
such entry (the raised `IndexError`), `some` of the occupant otherwise. -/
def cellAt? (b : Board) (r c : Nat) : Option (Option Piece) :=
  b[r]?.bind fun row => row[c]?

/-- The Python iteration `range(a + step, b, step)` with
`step = 1 if b > a else -1`, as used by `Rook._path_clear`: the column
(or row) indices strictly between `a` and `b`, walked from `a` towards
`b`. -/
def pyRange (a b : Nat) : List Nat :=
  if b > a then List.range' (a + 1) (b - (a + 1))
  else (List.range' (b + 1) (a - 1 - b)).reverse

/-- `Rook._path_clear`: for a horizontal move, every column strictly
between start and end must be empty; for a vertical move, every row; any
other geometry falls through to `True` (the source only reaches this
after the alignment guard). -/
def rook_path_clear (b : Board) (s e : Nat × Nat) : Bool :=
  if s.1 == e.1 then
    (pyRange s.2 e.2).all fun c => (cell b s.1 c).isNone
  else if s.2 == e.2 then
    (pyRange s.1 e.1).all fun r => (cell b r s.2).isNone
  else true

/-- `Rook._can_move`: reject when both the row delta and the column delta
are nonzero, otherwise require a clear path. -/
def rook_can_move (b : Board) (s e : Nat × Nat) : Bool :=
  let x_diff := ((s.1 : Int) - (e.1 : Int)).natAbs
  let y_diff := ((s.2 : Int) - (e.2 : Int)).natAbs
  if x_diff != 0 && y_diff != 0 then false
  else rook_path_clear b s e

/-- `Knight._can_move`: the product of the absolute deltas must be 2. -/
def knight_can_move (s e : Nat × Nat) : Bool :=
  let x_diff := ((s.1 : Int) - (e.1 : Int)).natAbs
  let y_diff := ((s.2 : Int) - (e.2 : Int)).natAbs
  x_diff * y_diff == 2

/-- One step of the `while` loop of `Bishop._check_path_clear`, with an
explicit fuel argument.  The source walks `row, col` from one past the
start towards the end, stepping by `(row_step, col_step)`, and returns
`False` at the first occupied cell.  On every call the source makes
(a genuine diagonal, `x_diff = y_diff > 0`), the walk reaches the end
cell in at most 7 steps, well inside the fuel.  In the one degenerate
case `start = end` (never reached through `can_move`, whose
friendly-fire guard fires first) the source's loop walks off the board
and raises `IndexError`; this model returns `true` there instead, a
corner no caller exercises. -/
def bishop_walk (b : Board) (row_step col_step er ec : Int) :
    Int → Int → Nat → Bool
  | _, _, 0 => true
  | row, col, fuel + 1 =>
    if row != er && col != ec then
      let occupied :=
        match resolveIdx row, resolveIdx col with
        | some i, some j => (cell b i j).isSome
        | _, _ => false
      if occupied then false
      else bishop_walk b row_step col_step er ec (row + row_step) (col + col_step) fuel
    else true

/-- `Bishop._check_path_clear`: walk the diagonal strictly between start
and end, requiring every intervening cell empty. -/
def bishop_check_path_clear (b : Board) (s e : Nat × Nat) : Bool :=
  let row_step : Int := if s.1 < e.1 then 1 else -1
  let col_step : Int := if s.2 < e.2 then 1 else -1
  bishop_walk b row_step col_step (e.1 : Int) (e.2 : Int)
    ((s.1 : Int) + row_step) ((s.2 : Int) + col_step) 16

/-- `Bishop._can_move`: the absolute deltas must be equal, and the
diagonal path clear. -/
def bishop_can_move (b : Board) (s e : Nat × Nat) : Bool :=
  let x_diff := ((s.1 : Int) - (e.1 : Int)).natAbs
  let y_diff := ((s.2 : Int) - (e.2 : Int)).natAbs
  if x_diff != y_diff then false
  else bishop_check_path_clear b s e

/-- `King._can_move`: the larger absolute delta must be exactly 1. -/
def king_can_move (s e : Nat × Nat) : Bool :=
  let x_diff := ((s.1 : Int) - (e.1 : Int)).natAbs
  let y_diff := ((s.2 : Int) - (e.2 : Int)).natAbs
  max x_diff y_diff == 1

/-- `Pawn._can_move` for a pawn of color `is_white`: forward one onto an
empty cell, forward two from the home rank onto an empty cell (the
source checks nothing about the intermediate square), or a diagonal
one-step capture of an opposite-color piece. -/
def pawn_can_move (is_white : Bool) (b : Board) (s e : Nat × Nat) : Bool :=
  let direction : Int := if is_white then -1 else 1
  if s.2 == e.2 && (e.1 : Int) - (s.1 : Int) == direction
      && (cell b e.1 e.2).isNone then
    true
  else if s.2 == e.2
      && ((is_white && s.1 == 6) || (!is_white && s.1 == 1))
      && (e.1 : Int) - (s.1 : Int) == 2 * direction
      && (cell b e.1 e.2).isNone then
    true
  else if ((s.2 : Int) - (e.2 : Int)).natAbs == 1
      && (e.1 : Int) - (s.1 : Int) == direction
      && (match cell b e.1 e.2 with
          | some q => q.is_white != is_white
          | none => false) then
    true
  else false

/-- The variant-specific `_can_move`, dispatched on the piece kind as the
source dispatches dynamically over the `Piece` subclass.
`Queen._can_move` delegates to `Rook(self.is_white)._can_move` and
`Bishop(self.is_white)._can_move` (whose color argument neither the rook
rule nor the bishop rule reads). -/
def piece_can_move (b : Board) (p : Piece) (s e : Nat × Nat) : Bool :=
  match p.kind with
  | PieceKind.rook => rook_can_move b s e
  | PieceKind.knight => knight_can_move s e
  | PieceKind.bishop => bishop_can_move b s e
  | PieceKind.king => king_can_move s e
  | PieceKind.queen => rook_can_move b s e || bishop_can_move b s e
  | PieceKind.pawn => pawn_can_move p.is_white b s e

/-- `Piece.can_move`: the common friendly-fire guard (destination held by
a same-color piece) followed by the variant rule. -/
def can_move (b : Board) (p : Piece) (s e : Nat × Nat) : Bool :=
  match cell b e.1 e.2 with
  | some q => if q.is_white == p.is_white then false else piece_can_move b p s e
  | none => piece_can_move b p s e

/-- The friendly-fire guard on its own: the destination cell holds a
piece of the mover's color. -/
def same_color_at (b : Board) (p : Piece) (r c : Nat) : Bool :=
  match cell b r c with
  | some q => q.is_white == p.is_white
  | none => false

/-- Lower-casing of a piece-type key, `piece_type.lower()` in the
source (character-wise, which agrees with Python on these ASCII keys). -/
def lowerStr (s : String) : String :=
  String.mk (s.data.map Char.toLower)

/-- `PieceFactory.create`: the string-keyed constructor lookup.  `none`
models the exception raised for an unrecognized piece type; the board
initializer only ever passes the six valid keys. -/
def create (piece_type : String) (is_piece_white : Bool) : Option Piece :=
  match lowerStr piece_type with
  | "rook" => some ⟨is_piece_white, PieceKind.rook, false⟩
  | "knight" => some ⟨is_piece_white, PieceKind.knight, false⟩
  | "bishop" => some ⟨is_piece_white, PieceKind.bishop, false⟩
  | "king" => some ⟨is_piece_white, PieceKind.king, false⟩
  | "queen" => some ⟨is_piece_white, PieceKind.queen, false⟩
  | "pawn" => some ⟨is_piece_white, PieceKind.pawn, false⟩
  | _ => none

/-- The back-rank piece order used by `Board.initialize_board`. -/
def piece_order : List String :=
  ["rook", "knight", "bishop", "queen", "king", "bishop", "knight", "rook"]

/-- `Board.initialize_board` applied to the blank 8×8 grid of the `Board`
constructor: black back rank and pawns on rows 0 and 1, white on rows 7
and 6, rows 2–5 cleared. -/
def initial_board : Board :=
  let b0 : Board := List.replicate 8 (List.replicate 8 none)
  let b1 := (List.range 8).foldl
    (fun b col_idx =>
      setPiece (setPiece b 0 col_idx (create (piece_order.getD col_idx "") false))
        1 col_idx (create "pawn" false)) b0
  let b2 := (List.range 8).foldl
    (fun b col_idx =>
      setPiece (setPiece b 7 col_idx (create (piece_order.getD col_idx "") true))
        6 col_idx (create "pawn" true)) b1
  (List.range 4).foldl
    (fun b i => (List.range 8).foldl (fun b' col_idx => setPiece b' (2 + i) col_idx none) b) b2

inductive GameState where
  | IN_PROGRESS
  | WHITE_WIN
  | BLACK_WIN
  | DRAW
deriving DecidableEq

/-- The game record: board, side-to-move flag and state.  The two
`Player` display records of the source are never read by the move logic
and are omitted. -/
structure Game where
  board : Board
  is_white_turn : Bool
  current_state : GameState
deriving DecidableEq

/-- A fresh game: the initial board, white to move, in progress. -/
def initialGame : Game :=
  { board := initial_board, is_white_turn := true, current_state := GameState.IN_PROGRESS }

/-- `Game.is_valid_move` on the resolved source and destination cells:
the source must hold a piece of the side-to-move's color, which must be
able to move to the destination. -/
def is_valid_move (g : Game) (s e : Nat × Nat) : Bool :=
  match cell g.board s.1 s.2 with
  | none => false
  | some p => if p.is_white != g.is_white_turn then false else can_move g.board p s e

/-- `Game.make_move`.  The four coordinates are resolved by Python list
indexing (`none` models the `IndexError` the source raises when one is
out of range); an invalid move returns `false` with the game unchanged;
an accepted move marks any destination piece captured (the `is_killed`
write on the detached piece, which the board no longer references),
transitions the state when that piece is a king, relocates the source
piece, clears the source cell, and flips the turn.  The source never
checks `current_state` here. -/
def make_move (g : Game) (start_row start_col end_row end_col : Int) :
    Option (Bool × Game) :=
  match resolveIdx start_row, resolveIdx start_col,
      resolveIdx end_row, resolveIdx end_col with
  | some i1, some j1, some i2, some j2 =>
    match cellAt? g.board i1 j1, cellAt? g.board i2 j2 with
    | some _, some _ =>
      if is_valid_move g (i1, j1) (i2, j2) then
        let st :=
          match cell g.board i2 j2 with
          | some q =>
            if q.kind = PieceKind.king then
              if g.is_white_turn then GameState.WHITE_WIN else GameState.BLACK_WIN
            else g.current_state
          | none => g.current_state
        let b1 := setPiece g.board i2 j2 (cell g.board i1 j1)
        let b2 := setPiece b1 i1 j1 none
        some (true, { board := b2, is_white_turn := !g.is_white_turn, current_state := st })
      else some (false, g)
    | _, _ => none
  | _, _, _, _ => none

/-- The loop of `Game.start` driven by a finite list of candidate moves
(the move provider): while the state is `IN_PROGRESS`, feed the next
move to `make_move` (whether accepted or rejected); once the state is
terminal, remaining moves are not processed.  `none` propagates a raised
`IndexError`. -/
def runMoves (g : Game) : List (Int × Int × Int × Int) → Option Game
  | [] => some g
  | m :: ms =>
    if g.current_state = GameState.IN_PROGRESS then
      match make_move g m.1 m.2.1 m.2.2.1 m.2.2.2 with
      | some (_, g') => runMoves g' ms
      | none => none
    else some g

/-- An 8×8 grid shape, which every board built by the source has. -/
def boardWF (b : Board) : Prop :=
  b.length = 8 ∧ ∀ row ∈ b, row.length = 8

instance : DecidablePred boardWF := fun b => by
  unfold boardWF; infer_instance

/-- The strictly-between-cells-are-empty condition of the specification's
rook rule: when the move is horizontal, every column strictly between the
endpoints is empty; when vertical, every row strictly between them. -/
def rook_between_clear (b : Board) (s e : Nat × Nat) : Prop :=
  (s.1 = e.1 → ∀ c, c < max s.2 e.2 → min s.2 e.2 < c → cell b s.1 c = none) ∧
  (s.2 = e.2 → ∀ r, r < max s.1 e.1 → min s.1 e.1 < r → cell b r s.2 = none)

instance (b : Board) (s e : Nat × Nat) : Decidable (rook_between_clear b s e) := by
  unfold rook_between_clear; infer_instance

/-- Count of the pieces of one color present on a board. -/
def count_color (b : Board) (w : Bool) : Nat :=
  (b.map fun row =>
    (row.filter fun oc =>
      match oc with
      | some p => p.is_white == w
      | none => false).length).sum

/-- The initial board with a black pawn placed on (5,4), blocking the
white (6,4) pawn's two-step path. -/
def blockedBoardB : Board :=
  setPiece initial_board 5 4 (some ⟨false, PieceKind.pawn, false⟩)

/-- The initial board with a white pawn placed on (5,4). -/
def blockedBoardW : Board :=
  setPiece initial_board 5 4 (some ⟨true, PieceKind.pawn, false⟩)

/-- The initial board with (7,1), (7,2) and (7,3) cleared, so the white
rook at (7,0) sees open squares up to its own king on (7,4). -/
def rookTestBoard : Board :=
  setPiece (setPiece (setPiece initial_board 7 1 none) 7 2 none) 7 3 none

/-- The initial board with the black pawn on (1,4) replaced by a white
queen, one step away from the black king on (0,4). -/
def kingTestBoard : Board :=
  setPiece initial_board 1 4 (some ⟨true, PieceKind.queen, false⟩)

/-- A game on `kingTestBoard`, white to move. -/
def kingTestGame : Game :=
  { board := kingTestBoard, is_white_turn := true, current_state := GameState.IN_PROGRESS }

/-- The game produced by `make_move kingTestGame 1 4 0 4`: the white
queen has captured the black king and the state is WHITE_WIN. -/
def gameAfterKingCapture : Game :=
  { board := setPiece (setPiece kingTestBoard 0 4 (cell kingTestBoard 1 4)) 1 4 none,
    is_white_turn := false, current_state := GameState.WHITE_WIN }

/-- The game produced by `make_move initialGame 6 4 5 4`: the white
e-pawn has advanced one square. -/
def gameAfterPawnMove : Game :=
  { board := setPiece (setPiece initial_board 5 4 (cell initial_board 6 4)) 6 4 none,
    is_white_turn := false, current_state := GameState.IN_PROGRESS }

/-- A seven-move sequence from the initial position in which the white
queen captures the black king: pawn e-file two-step, three black pawn
moves, queen to (3,7), queen takes the (1,5) pawn, queen takes the king
on (0,4). -/
def movesToWin : List (Int × Int × Int × Int) :=
  [(6, 4, 4, 4), (1, 0, 2, 0), (7, 3, 3, 7), (1, 1, 2, 1),
   (3, 7, 1, 5), (1, 2, 2, 2), (1, 5, 0, 4)]

/-! ### Supporting lemmas about indexing and updates -/

theorem resolveIdx_natCast (r : Nat) :
    resolveIdx (r : Int) = if r < 8 then some r else none := by
  unfold resolveIdx
  by_cases h : r < 8
  · rw [if_pos ⟨by omega, by omega⟩, if_pos h]
    simp
  · rw [if_neg (by omega), if_neg (by omega), if_neg h]

theorem cellAt?_props {b : Board} {r c : Nat} {v : Option Piece}
    (h : cellAt? b r c = some v) :
    r < b.length ∧ c < (b[r]?.getD []).length ∧ cell b r c = v := by
  unfold cellAt? at h
  cases hb : b[r]? with
  | none => rw [hb] at h; simp [Option.bind] at h
  | some row =>
    rw [hb] at h
    simp only [Option.some_bind] at h
    have hrlt : r < b.length := by
      rcases Nat.lt_or_ge r b.length with hh | hh
      · exact hh
      · rw [List.getElem?_eq_none hh] at hb; cases hb
    have hclt : c < row.length := by
      rcases Nat.lt_or_ge c row.length with hh | hh
      · exact hh
      · rw [List.getElem?_eq_none hh] at h; cases h
    refine ⟨hrlt, ?_, ?_⟩
    · simpa using hclt
    · unfold cell
      rw [hb]
      simp only [Option.getD_some]
      rw [h]
      rfl

theorem cellAt?_eq_cell_of_wf {b : Board} (hwf : boardWF b) {r c : Nat}
    (hr : r < 8) (hc : c < 8) : cellAt? b r c = some (cell b r c) := by
  obtain ⟨hlen, hrows⟩ := hwf
  have hrb : r < b.length := by omega
  have hbr : b[r]? = some b[r] := List.getElem?_eq_getElem hrb
  have hrlen : b[r].length = 8 := hrows _ (List.getElem_mem hrb)
  have hcb : c < b[r].length := by omega
  unfold cellAt? cell
  rw [hbr]
  simp only [Option.some_bind, Option.getD_some]
  rw [List.getElem?_eq_getElem hcb]
  rfl

theorem setPiece_length (b : Board) (r c : Nat) (p : Option Piece) :
    (setPiece b r c p).length = b.length := by
  unfold setPiece; exact List.length_set ..

theorem setPiece_row_length (b : Board) (r c : Nat) (p : Option Piece) (r' : Nat) :
    ((setPiece b r c p)[r']?.getD []).length = (b[r']?.getD []).length := by
  unfold setPiece
  by_cases h : r = r'
  · subst h
    by_cases hl : r < b.length
    · rw [List.getElem?_set_eq_of_lt _ hl, List.getElem?_eq_getElem hl]
      simp [List.length_set]
    · have h1 : (b.set r ((b[r]?.getD []).set c p))[r]? = none :=
        List.getElem?_eq_none (by rw [List.length_set]; omega)
      rw [h1, List.getElem?_eq_none (by omega)]
  · rw [List.getElem?_set_ne h]

theorem cell_setPiece_eq {b : Board} {r c : Nat} (p : Option Piece)
    (hr : r < b.length) (hc : c < (b[r]?.getD []).length) :
    cell (setPiece b r c p) r c = p := by
  unfold cell setPiece
  rw [List.getElem?_set_eq_of_lt _ hr]
  simp only [Option.getD_some]
  rw [List.getElem?_set_eq_of_lt _ (by simpa using hc)]
  rfl

theorem cell_setPiece_ne {b : Board} {r c : Nat} (p : Option Piece) {r' c' : Nat}
    (h : ¬(r' = r ∧ c' = c)) :
    cell (setPiece b r c p) r' c' = cell b r' c' := by
  unfold cell setPiece
  by_cases hr : r = r'
  · subst hr
    have hc : c' ≠ c := fun hh => h ⟨rfl, hh⟩
    by_cases hl : r < b.length
    · rw [List.getElem?_set_eq_of_lt _ hl, List.getElem?_eq_getElem hl]
      simp only [Option.getD_some]
      rw [List.getElem?_set_ne (fun hh => hc hh.symm)]
    · rw [List.set_eq_of_length_le (by omega)]
  · rw [List.getElem?_set_ne hr]

theorem mem_pyRange {a b c : Nat} : c ∈ pyRange a b ↔ min a b < c ∧ c < max a b := by
  unfold pyRange
  split_ifs with h
  · rw [List.mem_range'_1]; omega
  · rw [List.mem_reverse, List.mem_range'_1]; omega

theorem can_move_self_false {b : Board} {p : Piece} {r c : Nat}
    (h : cell b r c = some p) : can_move b p (r, c) (r, c) = false := by
  unfold can_move
  rw [h]
  simp

theorem is_valid_move_of_empty (g : Game) (s e : Nat × Nat)
    (h : cell g.board s.1 s.2 = none) : is_valid_move g s e = false := by
  unfold is_valid_move
  rw [h]

theorem is_valid_move_of_wrong_color (g : Game) (s e : Nat × Nat) {p : Piece}
    (h : cell g.board s.1 s.2 = some p) (hc : ¬p.is_white = g.is_white_turn) :
    is_valid_move g s e = false := by
  unfold is_valid_move
  rw [h]
  simp [hc]

theorem is_valid_move_true_elim {g : Game} {s e : Nat × Nat}
    (h : is_valid_move g s e = true) :
    ∃ p, cell g.board s.1 s.2 = some p ∧ p.is_white = g.is_white_turn ∧
      can_move g.board p s e = true := by
  unfold is_valid_move at h
  cases hc : cell g.board s.1 s.2 with
  | none => rw [hc] at h; cases h
  | some p =>
    rw [hc] at h
    by_cases hw : p.is_white = g.is_white_turn
    · refine ⟨p, rfl, hw, ?_⟩
      simpa [hw] using h
    · simp [hw] at h

theorem make_move_eq_of_inrange (g : Game) {r1 c1 r2 c2 : Nat} (hwf : boardWF g.board)
    (h1 : r1 < 8) (h2 : c1 < 8) (h3 : r2 < 8) (h4 : c2 < 8) :
    make_move g ↑r1 ↑c1 ↑r2 ↑c2 =
      (if is_valid_move g (r1, c1) (r2, c2) then
        some (true,
          { board := setPiece (setPiece g.board r2 c2 (cell g.board r1 c1)) r1 c1 none,
            is_white_turn := !g.is_white_turn,
            current_state :=
              match cell g.board r2 c2 with
              | some q =>
                if q.kind = PieceKind.king then
                  if g.is_white_turn then GameState.WHITE_WIN else GameState.BLACK_WIN
                else g.current_state
              | none => g.current_state })
       else some (false, g)) := by
  unfold make_move
  rw [resolveIdx_natCast r1, resolveIdx_natCast c1, resolveIdx_natCast r2,
    resolveIdx_natCast c2, if_pos h1, if_pos h2, if_pos h3, if_pos h4]
  dsimp only
  rw [cellAt?_eq_cell_of_wf hwf h1 h2, cellAt?_eq_cell_of_wf hwf h3 h4]

theorem make_move_accepted {g : Game} {r1 c1 r2 c2 : Nat} {g' : Game}
    (h : make_move g ↑r1 ↑c1 ↑r2 ↑c2 = some (true, g')) :
    is_valid_move g (r1, c1) (r2, c2) = true ∧
    r1 < g.board.length ∧ c1 < (g.board[r1]?.getD []).length ∧
    r2 < g.board.length ∧ c2 < (g.board[r2]?.getD []).length ∧
    g' = { board := setPiece (setPiece g.board r2 c2 (cell g.board r1 c1)) r1 c1 none,
           is_white_turn := !g.is_white_turn,
           current_state :=
             match cell g.board r2 c2 with
             | some q =>
               if q.kind = PieceKind.king then
                 if g.is_white_turn then GameState.WHITE_WIN else GameState.BLACK_WIN
               else g.current_state
             | none => g.current_state } := by
  unfold make_move at h
  rw [resolveIdx_natCast r1, resolveIdx_natCast c1, resolveIdx_natCast r2,
    resolveIdx_natCast c2] at h
  by_cases h1 : r1 < 8
  case neg => rw [if_neg h1] at h; cases h
  rw [if_pos h1] at h
  by_cases h2 : c1 < 8
  case neg => rw [if_neg h2] at h; cases h
  rw [if_pos h2] at h
  by_cases h3 : r2 < 8
  case neg => rw [if_neg h3] at h; cases h
  rw [if_pos h3] at h
  by_cases h4 : c2 < 8
  case neg => rw [if_neg h4] at h; cases h
  rw [if_pos h4] at h
  dsimp only at h
  cases hA : cellAt? g.board r1 c1 with
  | none => rw [hA] at h; cases h
  | some v1 =>
    rw [hA] at h
    cases hB : cellAt? g.board r2 c2 with
    | none => rw [hB] at h; cases h
    | some v2 =>
      rw [hB] at h
      obtain ⟨hl1, hl2, -⟩ := cellAt?_props hA
      obtain ⟨hl3, hl4, -⟩ := cellAt?_props hB
      by_cases hv : is_valid_move g (r1, c1) (r2, c2)
      · rw [if_pos hv] at h
        refine ⟨hv, hl1, hl2, hl3, hl4, ?_⟩
        exact (congrArg Prod.snd (Option.some.inj h)).symm
      · rw [if_neg hv] at h
        cases Option.some.inj h

theorem make_move_true_board {g : Game} {r1 c1 r2 c2 : Nat} {g' : Game}
    (h : make_move g ↑r1 ↑c1 ↑r2 ↑c2 = some (true, g')) :
    (cell g.board r1 c1).isSome = true ∧
    cell g'.board r1 c1 = none ∧
    cell g'.board r2 c2 = cell g.board r1 c1 ∧
    g'.is_white_turn = !g.is_white_turn ∧
    ∀ r c : Nat, ¬(r = r1 ∧ c = c1) → ¬(r = r2 ∧ c = c2) →
      cell g'.board r c = cell g.board r c := by
  obtain ⟨hv, hl1, hl2, hl3, hl4, hg⟩ := make_move_accepted h
  obtain ⟨p, hp, hw, hcm⟩ := is_valid_move_true_elim hv
  have hne : ¬(r1 = r2 ∧ c1 = c2) := by
    rintro ⟨hh1, hh2⟩
    subst hh1; subst hh2
    rw [can_move_self_false hp] at hcm
    cases hcm
  subst hg
  refine ⟨by rw [hp]; rfl, ?_, ?_, rfl, ?_⟩
  · exact cell_setPiece_eq none (by rw [setPiece_length]; exact hl1)
      (by rw [setPiece_row_length]; exact hl2)
  · rw [cell_setPiece_ne none (fun hh => hne ⟨hh.1.symm, hh.2.symm⟩)]
    exact cell_setPiece_eq _ hl3 hl4
  · intro r c hA hB
    rw [cell_setPiece_ne none hA, cell_setPiece_ne _ hB]

theorem pyRange_all_cells_col (b : Board) (r a a' : Nat) :
    ((pyRange a a').all fun c => (cell b r c).isNone) = true ↔
      ∀ c, c < max a a' → min a a' < c → cell b r c = none := by
  rw [List.all_eq_true]
  constructor
  · intro hall c hc1 hc2
    have := hall c (mem_pyRange.mpr ⟨hc2, hc1⟩)
    simpa [Option.isNone_iff_eq_none] using this
  · intro hbet x hx
    obtain ⟨ha, hb'⟩ := mem_pyRange.mp hx
    simpa [Option.isNone_iff_eq_none] using hbet x hb' ha

theorem pyRange_all_cells_row (b : Board) (c a a' : Nat) :
    ((pyRange a a').all fun r => (cell b r c).isNone) = true ↔
      ∀ r, r < max a a' → min a a' < r → cell b r c = none := by
  rw [List.all_eq_true]
  constructor
  · intro hall r hr1 hr2
    have := hall r (mem_pyRange.mpr ⟨hr2, hr1⟩)
    simpa [Option.isNone_iff_eq_none] using this
  · intro hbet x hx
    obtain ⟨ha, hb'⟩ := mem_pyRange.mp hx
    simpa [Option.isNone_iff_eq_none] using hbet x hb' ha

theorem rook_can_move_iff (b : Board) (s e : Nat × Nat)
    (hne : ¬(s.1 = e.1 ∧ s.2 = e.2)) :
    rook_can_move b s e = true ↔
      (((s.1 = e.1 ∧ s.2 ≠ e.2) ∨ (s.1 ≠ e.1 ∧ s.2 = e.2)) ∧
        rook_between_clear b s e) := by
  by_cases h1 : s.1 = e.1
  · have h2 : s.2 ≠ e.2 := fun hh => hne ⟨h1, hh⟩
    have hL : rook_can_move b s e = rook_path_clear b s e := by
      unfold rook_can_move
      rw [if_neg]
      simp [h1]
    have hP : rook_path_clear b s e =
        ((pyRange s.2 e.2).all fun c => (cell b s.1 c).isNone) := by
      unfold rook_path_clear
      rw [if_pos (by simp [h1])]
    rw [hL, hP, pyRange_all_cells_col]
    constructor
    · intro hall
      exact ⟨Or.inl ⟨h1, h2⟩, fun _ => hall, fun hh => absurd hh h2⟩
    · rintro ⟨-, hcol, -⟩
      exact hcol h1
  · by_cases h2 : s.2 = e.2
    · have hL : rook_can_move b s e = rook_path_clear b s e := by
        unfold rook_can_move
        rw [if_neg]
        simp [h2]
      have hP : rook_path_clear b s e =
          ((pyRange s.1 e.1).all fun r => (cell b r s.2).isNone) := by
        unfold rook_path_clear
        rw [if_neg (by simp [h1]), if_pos (by simp [h2])]
      rw [hL, hP, pyRange_all_cells_row]
      constructor
      · intro hall
        exact ⟨Or.inr ⟨h1, h2⟩, fun hh => absurd hh h1, fun _ => hall⟩
      · rintro ⟨-, -, hrow⟩
        exact hrow h2
    · have hL : rook_can_move b s e = false := by
        unfold rook_can_move
        rw [if_pos]
        have hxne : ((s.1 : Int) - (e.1 : Int)).natAbs ≠ 0 := by
          intro hh
          exact h1 (by omega)
        have hyne : ((s.2 : Int) - (e.2 : Int)).natAbs ≠ 0 := by
          intro hh
          exact h2 (by omega)
        simp [hxne, hyne]
      rw [hL]
      simp [h1, h2]

/-! ### Claim theorems -/

/-- Claim C1.  The claim says every `makeMove` call with a coordinate
outside `[0,8)` returns false without crashing or mutating.  The source
has no bounds check: index 8 raises `IndexError` (modelled by `none`),
while indices -2 and -3 wrap Python-style to rows 6 and 5, and the wrapped pawn
move is accepted — returning true and clearing the (6,4) source cell. -/
theorem c1_out_of_range_not_rejected :
    make_move initialGame 8 0 0 0 = none ∧
    (make_move initialGame (-2) 4 (-3) 4).map Prod.fst = some true ∧
    ((make_move initialGame (-2) 4 (-3) 4).map fun pr => cell pr.2.board 6 4) =
      some none := by
  refine ⟨by decide, by decide, by decide⟩

/-- Claim C2, counterexample.  With (4,4) empty and (5,4) occupied — by
a black pawn on `blockedBoardB`, by a white pawn on `blockedBoardW` —
the white pawn at (6,4) can still two-step to (4,4): `canMove` returns
true, where the claim says false. -/
theorem c2_two_step_ignores_blocker :
    (cell blockedBoardB 5 4).isSome = true ∧
    (cell blockedBoardW 5 4).isSome = true ∧
    cell blockedBoardB 4 4 = none ∧
    cell blockedBoardW 4 4 = none ∧
    cell blockedBoardB 6 4 = some ⟨true, PieceKind.pawn, false⟩ ∧
    cell blockedBoardW 6 4 = some ⟨true, PieceKind.pawn, false⟩ ∧
    can_move blockedBoardB ⟨true, PieceKind.pawn, false⟩ (6, 4) (4, 4) = true ∧
    can_move blockedBoardW ⟨true, PieceKind.pawn, false⟩ (6, 4) (4, 4) = true := by
  refine ⟨by decide, by decide, by decide, by decide, by decide, by decide,
    by decide, by decide⟩

/-- Claim C2, amended.  A white pawn at (6,4) can move to (5,4) whenever
(5,4) is empty, and can move to (4,4) whenever (4,4) is empty —
regardless of the occupancy of the intermediate square (5,4), which the
source's two-step rule never consults. -/
theorem c2_pawn_forward_moves (b : Board) (p : Piece)
    (_hp : cell b 6 4 = some p) (hw : p.is_white = true)
    (hk : p.kind = PieceKind.pawn) :
    (cell b 5 4 = none → can_move b p (6, 4) (5, 4) = true) ∧
    (cell b 4 4 = none → can_move b p (6, 4) (4, 4) = true) := by
  constructor <;> intro he <;>
    simp [can_move, he, piece_can_move, hk, pawn_can_move, hw]

/-- Claim C2, witness for the amended theorem, exercised at the blocked
board: the two-step to the empty (4,4) is accepted over the occupied
(5,4). -/
theorem c2_pawn_forward_moves_witness :
    cell blockedBoardB 6 4 = some ⟨true, PieceKind.pawn, false⟩ ∧
    cell blockedBoardB 4 4 = none ∧
    can_move blockedBoardB ⟨true, PieceKind.pawn, false⟩ (6, 4) (4, 4) = true :=
  ⟨by decide, by decide,
   (c2_pawn_forward_moves blockedBoardB ⟨true, PieceKind.pawn, false⟩
      (by decide) rfl rfl).2 (by decide)⟩

/-- Claim C3, counterexample.  After the seven-move sequence in which
white captures the black king (state WHITE_WIN), a direct call to
`makeMove` is still processed: black's pawn push (1,3)→(2,3) returns
true, where the claim says every later call returns false. -/
theorem c3_terminal_not_checked_by_make_move :
    (runMoves initialGame movesToWin).map Game.current_state =
      some GameState.WHITE_WIN ∧
    ((runMoves initialGame movesToWin).bind fun g =>
      (make_move g 1 3 2 3).map Prod.fst) = some true := by
  refine ⟨by decide, by decide⟩

/-- Claim C3, amended.  When an accepted move's destination holds a
king, `makeMove` sets WHITE_WIN if white was to move and BLACK_WIN
otherwise; and the game loop processes no move once the state is
terminal (`makeMove` itself, called directly, does not check the
state). -/
theorem c3_king_capture_and_loop :
    (∀ (g : Game) (r1 c1 r2 c2 : Nat) (g' : Game) (p : Piece),
        make_move g ↑r1 ↑c1 ↑r2 ↑c2 = some (true, g') →
        cell g.board r2 c2 = some p → p.kind = PieceKind.king →
        g'.current_state =
          (if g.is_white_turn then GameState.WHITE_WIN else GameState.BLACK_WIN)) ∧
    (∀ (g : Game) (ms : List (Int × Int × Int × Int)),
        g.current_state ≠ GameState.IN_PROGRESS → runMoves g ms = some g) := by
  constructor
  · intro g r1 c1 r2 c2 g' p h hp hk
    obtain ⟨-, -, -, -, -, hg⟩ := make_move_accepted h
    subst hg
    dsimp only
    rw [hp]
    simp [hk]
  · intro g ms hterm
    cases ms with
    | nil => rfl
    | cons m ms' =>
      unfold runMoves
      rw [if_neg hterm]

/-- Claim C3, witness: the white queen on `kingTestBoard` captures the
black king, the state becomes WHITE_WIN, and the loop then ignores a
further move. -/
theorem c3_king_capture_witness :
    cell kingTestGame.board 0 4 = some ⟨false, PieceKind.king, false⟩ ∧
    gameAfterKingCapture.current_state =
      (if kingTestGame.is_white_turn then GameState.WHITE_WIN
       else GameState.BLACK_WIN) ∧
    runMoves gameAfterKingCapture [(1, 3, 2, 3)] = some gameAfterKingCapture :=
  ⟨by decide,
   c3_king_capture_and_loop.1 kingTestGame 1 4 0 4 gameAfterKingCapture
     ⟨false, PieceKind.king, false⟩ (by decide) (by decide) rfl,
   c3_king_capture_and_loop.2 gameAfterKingCapture [(1, 3, 2, 3)] (by decide)⟩

/-- Claim C4, counterexample.  The call `makeMove(0,0,0,8)` has a
coordinate outside `[0,8)`: the source raises `IndexError` (modelled by
`none`) instead of returning false, so not every call returns a
boolean. -/
theorem c4_crash_input : make_move initialGame 0 0 0 8 = none := by decide

/-- Claim C4, amended.  For in-range coordinates on an 8×8 board,
`makeMove` is atomic: the call completes, a false return leaves the game
exactly as before, a true return flips the turn, clears the source and
relocates its piece to the destination; and the call returns false with
no mutation when the source cell is empty or holds a piece of the wrong
color.  (A coordinate outside `[-8,8)` instead raises, before any
mutation.) -/
theorem c4_make_move_atomic (g : Game) (r1 c1 r2 c2 : Nat) (hwf : boardWF g.board)
    (h1 : r1 < 8) (h2 : c1 < 8) (h3 : r2 < 8) (h4 : c2 < 8) :
    (make_move g ↑r1 ↑c1 ↑r2 ↑c2).isSome = true ∧
    (∀ g', make_move g ↑r1 ↑c1 ↑r2 ↑c2 = some (false, g') → g' = g) ∧
    (∀ g', make_move g ↑r1 ↑c1 ↑r2 ↑c2 = some (true, g') →
        g'.is_white_turn = !g.is_white_turn ∧ cell g'.board r1 c1 = none ∧
        cell g'.board r2 c2 = cell g.board r1 c1 ∧
        (cell g.board r1 c1).isSome = true) ∧
    (cell g.board r1 c1 = none → make_move g ↑r1 ↑c1 ↑r2 ↑c2 = some (false, g)) ∧
    (∀ p, cell g.board r1 c1 = some p → ¬p.is_white = g.is_white_turn →
        make_move g ↑r1 ↑c1 ↑r2 ↑c2 = some (false, g)) := by
  have hmm := make_move_eq_of_inrange g hwf h1 h2 h3 h4
  refine ⟨?_, ?_, ?_, ?_, ?_⟩
  · rw [hmm]
    by_cases hv : is_valid_move g (r1, c1) (r2, c2) = true
    · rw [if_pos hv]; rfl
    · rw [if_neg hv]; rfl
  · intro g' h
    rw [hmm] at h
    by_cases hv : is_valid_move g (r1, c1) (r2, c2) = true
    · rw [if_pos hv] at h
      simp at h
    · rw [if_neg hv] at h
      exact (congrArg Prod.snd (Option.some.inj h)).symm
  · intro g' h
    obtain ⟨ha, hb', hc', hd, -⟩ := make_move_true_board h
    exact ⟨hd, hb', hc', ha⟩
  · intro hempty
    rw [hmm, if_neg]
    rw [is_valid_move_of_empty g (r1, c1) (r2, c2) hempty]
    simp
  · intro p hp hcol
    rw [hmm, if_neg]
    rw [is_valid_move_of_wrong_color g (r1, c1) (r2, c2) hp hcol]
    simp

/-- Claim C4, witness: a fresh game and the in-range pawn push
(6,4)→(5,4); the call completes. -/
theorem c4_make_move_atomic_witness :
    boardWF initialGame.board ∧
    (make_move initialGame 6 4 5 4).isSome = true :=
  ⟨by decide,
   (c4_make_move_atomic initialGame 6 4 5 4 (by decide) (by decide) (by decide)
      (by decide) (by decide)).1⟩

/-- Claim C5.  A rook's `canMove` is true exactly when the destination
is not held by a same-color piece, the move is purely horizontal or
purely vertical, and every cell strictly between the endpoints is
empty; on `rookTestBoard` the (7,0) rook reaches (7,1)..(7,3) but not
(7,4) (own king) nor any square beyond. -/
theorem c5_rook_rule :
    (∀ (b : Board) (p : Piece) (s e : Nat × Nat),
        cell b s.1 s.2 = some p → p.kind = PieceKind.rook →
        (can_move b p s e = true ↔
          (same_color_at b p e.1 e.2 = false ∧
           ((s.1 = e.1 ∧ s.2 ≠ e.2) ∨ (s.1 ≠ e.1 ∧ s.2 = e.2)) ∧
           rook_between_clear b s e))) ∧
    can_move rookTestBoard ⟨true, PieceKind.rook, false⟩ (7, 0) (7, 1) = true ∧
    can_move rookTestBoard ⟨true, PieceKind.rook, false⟩ (7, 0) (7, 2) = true ∧
    can_move rookTestBoard ⟨true, PieceKind.rook, false⟩ (7, 0) (7, 3) = true ∧
    can_move rookTestBoard ⟨true, PieceKind.rook, false⟩ (7, 0) (7, 4) = false ∧
    can_move rookTestBoard ⟨true, PieceKind.rook, false⟩ (7, 0) (7, 5) = false ∧
    can_move rookTestBoard ⟨true, PieceKind.rook, false⟩ (7, 0) (7, 6) = false ∧
    can_move rookTestBoard ⟨true, PieceKind.rook, false⟩ (7, 0) (7, 7) = false ∧
    cell rookTestBoard 7 0 = some ⟨true, PieceKind.rook, false⟩ ∧
    cell rookTestBoard 7 1 = none ∧ cell rookTestBoard 7 2 = none ∧
    cell rookTestBoard 7 3 = none ∧
    cell rookTestBoard 7 4 = some ⟨true, PieceKind.king, false⟩ := by
  refine ⟨?_, by decide, by decide, by decide, by decide, by decide, by decide,
    by decide, by decide, by decide, by decide, by decide, by decide⟩
  intro b p s e hs hk
  have hguard : ∀ hne : ¬(s.1 = e.1 ∧ s.2 = e.2),
      (piece_can_move b p s e = true ↔
        (((s.1 = e.1 ∧ s.2 ≠ e.2) ∨ (s.1 ≠ e.1 ∧ s.2 = e.2)) ∧
          rook_between_clear b s e)) := by
    intro hne
    unfold piece_can_move
    rw [hk]
    exact rook_can_move_iff b s e hne
  unfold can_move same_color_at
  cases hce : cell b e.1 e.2 with
  | none =>
    have hne : ¬(s.1 = e.1 ∧ s.2 = e.2) := by
      rintro ⟨ha, hb'⟩
      have : cell b s.1 s.2 = none := by rw [ha, hb']; exact hce
      rw [hs] at this
      cases this
    dsimp only
    rw [hguard hne]
    simp
  | some q =>
    dsimp only
    by_cases hq : (q.is_white == p.is_white) = true
    · rw [if_pos hq]
      simp [hq]
    · rw [if_neg hq]
      have hqf : (q.is_white == p.is_white) = false := by
        simpa using hq
      have hne : ¬(s.1 = e.1 ∧ s.2 = e.2) := by
        rintro ⟨ha, hb'⟩
        have : cell b s.1 s.2 = some q := by rw [ha, hb']; exact hce
        rw [hs] at this
        cases this
        simp at hqf
      rw [hguard hne]
      simp [hqf]

/-- Claim C5, witness: the rook rule instantiated at `rookTestBoard`
with the (7,0)→(7,2) move. -/
theorem c5_rook_rule_witness :
    cell rookTestBoard 7 0 = some ⟨true, PieceKind.rook, false⟩ ∧
    (can_move rookTestBoard ⟨true, PieceKind.rook, false⟩ (7, 0) (7, 2) = true ↔
      (same_color_at rookTestBoard ⟨true, PieceKind.rook, false⟩ 7 2 = false ∧
       (((7 : Nat) = 7 ∧ (0 : Nat) ≠ 2) ∨ ((7 : Nat) ≠ 7 ∧ (0 : Nat) = 2)) ∧
       rook_between_clear rookTestBoard (7, 0) (7, 2))) :=
  ⟨by decide,
   c5_rook_rule.1 rookTestBoard ⟨true, PieceKind.rook, false⟩ (7, 0) (7, 2)
     (by decide) rfl⟩

/-- Claim C6.  A queen's `canMove` equals the disjunction of the rook
rule and the bishop rule for a piece of the same color, over the same
board. -/
theorem c6_queen_is_rook_or_bishop (b : Board) (w k : Bool) (s e : Nat × Nat) :
    can_move b ⟨w, PieceKind.queen, k⟩ s e =
      (can_move b ⟨w, PieceKind.rook, k⟩ s e ||
       can_move b ⟨w, PieceKind.bishop, k⟩ s e) := by
  unfold can_move piece_can_move
  cases hce : cell b e.1 e.2 with
  | none => rfl
  | some q =>
    dsimp only
    by_cases hq : (q.is_white == w) = true
    · rw [if_pos hq, if_pos hq, if_pos hq]
      rfl
    · rw [if_neg hq, if_neg hq, if_neg hq]

/-- Claim C6, witness: the queen diagonal (7,3)→(3,7) on the initial
board, where the rule coincides with the rook-or-bishop disjunction. -/
theorem c6_queen_is_rook_or_bishop_witness :
    can_move initial_board ⟨true, PieceKind.queen, false⟩ (7, 3) (3, 7) =
      (can_move initial_board ⟨true, PieceKind.rook, false⟩ (7, 3) (3, 7) ||
       can_move initial_board ⟨true, PieceKind.bishop, false⟩ (7, 3) (3, 7)) :=
  c6_queen_is_rook_or_bishop initial_board true false (7, 3) (3, 7)

/-- Claim C7.  When the destination holds no same-color piece, a
knight's `canMove` is true exactly when the product of the absolute
deltas is 2, with no dependence on any other cell; on the initial board
the (7,1) knight reaches (5,0) and (5,2) over the occupied (6,0) and
(6,2). -/
theorem c7_knight_rule :
    (∀ (b : Board) (p : Piece) (s e : Nat × Nat),
        p.kind = PieceKind.knight →
        same_color_at b p e.1 e.2 = false →
        (can_move b p s e = true ↔
          ((s.1 : Int) - (e.1 : Int)).natAbs *
            ((s.2 : Int) - (e.2 : Int)).natAbs = 2)) ∧
    can_move initial_board ⟨true, PieceKind.knight, false⟩ (7, 1) (5, 0) = true ∧
    can_move initial_board ⟨true, PieceKind.knight, false⟩ (7, 1) (5, 2) = true ∧
    (cell initial_board 6 0).isSome = true ∧
    (cell initial_board 6 2).isSome = true := by
  refine ⟨?_, by decide, by decide, by decide, by decide⟩
  intro b p s e hk hff
  unfold same_color_at at hff
  unfold can_move
  cases hce : cell b e.1 e.2 with
  | none =>
    dsimp only
    unfold piece_can_move
    rw [hk]
    simp [knight_can_move]
  | some q =>
    rw [hce] at hff
    dsimp only at hff
    dsimp only
    rw [if_neg (by simp [hff])]
    unfold piece_can_move
    rw [hk]
    simp [knight_can_move]

/-- Claim C7, witness: the knight rule instantiated at the initial
board with the (7,1)→(5,2) jump. -/
theorem c7_knight_rule_witness :
    same_color_at initial_board ⟨true, PieceKind.knight, false⟩ 5 2 = false ∧
    (can_move initial_board ⟨true, PieceKind.knight, false⟩ (7, 1) (5, 2) = true ↔
      ((7 : Int) - (5 : Int)).natAbs * ((1 : Int) - (2 : Int)).natAbs = 2) :=
  ⟨by decide,
   c7_knight_rule.1 initial_board ⟨true, PieceKind.knight, false⟩ (7, 1) (5, 2)
     rfl (by decide)⟩

/-- Claim C8.  The freshly initialized board has 16 white pieces, all on
rows 6–7, and 16 black pieces, all on rows 0–1; kings on (7,4) and
(0,4); rooks on the four corners; pawns filling rows 1 and 6; rows 2–5
empty. -/
theorem c8_initial_board_layout :
    count_color initial_board true = 16 ∧
    count_color initial_board false = 16 ∧
    ((List.range 8).all fun r => (List.range 8).all fun c =>
        match cell initial_board r c with
        | some p => if p.is_white then r == 6 || r == 7 else r == 0 || r == 1
        | none => true) = true ∧
    cell initial_board 7 4 = some ⟨true, PieceKind.king, false⟩ ∧
    cell initial_board 0 4 = some ⟨false, PieceKind.king, false⟩ ∧
    cell initial_board 0 0 = some ⟨false, PieceKind.rook, false⟩ ∧
    cell initial_board 0 7 = some ⟨false, PieceKind.rook, false⟩ ∧
    cell initial_board 7 0 = some ⟨true, PieceKind.rook, false⟩ ∧
    cell initial_board 7 7 = some ⟨true, PieceKind.rook, false⟩ ∧
    ((List.range 8).all fun c =>
        cell initial_board 1 c == some ⟨false, PieceKind.pawn, false⟩) = true ∧
    ((List.range 8).all fun c =>
        cell initial_board 6 c == some ⟨true, PieceKind.pawn, false⟩) = true ∧
    ((List.range 4).all fun i => (List.range 8).all fun c =>
        (cell initial_board (2 + i) c).isNone) = true := by
  refine ⟨by decide, by decide, by decide, by decide, by decide, by decide,
    by decide, by decide, by decide, by decide, by decide, by decide⟩

/-- Claim C9.  A null move is always rejected: whatever piece a cell
holds, its `canMove` back to its own cell is false — the friendly-fire
guard sees the mover itself on the destination. -/
theorem c9_null_move_rejected (b : Board) (r c : Nat) (p : Piece)
    (h : cell b r c = some p) : can_move b p (r, c) (r, c) = false :=
  can_move_self_false h

/-- Claim C9, witness: the black rook on (0,0) of the initial board
cannot move to (0,0). -/
theorem c9_null_move_rejected_witness :
    cell initial_board 0 0 = some ⟨false, PieceKind.rook, false⟩ ∧
    can_move initial_board ⟨false, PieceKind.rook, false⟩ (0, 0) (0, 0) = false :=
  ⟨by decide,
   c9_null_move_rejected initial_board 0 0 ⟨false, PieceKind.rook, false⟩
     (by decide)⟩

/-- Claim C10.  After any accepted `makeMove(r1,c1,r2,c2)` the source
cell is empty, the destination holds exactly the piece the source held
before, and every other cell is unchanged. -/
theorem c10_accepted_move_frame (g : Game) (r1 c1 r2 c2 : Nat) (g' : Game)
    (h : make_move g ↑r1 ↑c1 ↑r2 ↑c2 = some (true, g')) :
    (cell g.board r1 c1).isSome = true ∧
    cell g'.board r1 c1 = none ∧
    cell g'.board r2 c2 = cell g.board r1 c1 ∧
    ∀ r c : Nat, ¬(r = r1 ∧ c = c1) → ¬(r = r2 ∧ c = c2) →
      cell g'.board r c = cell g.board r c := by
  obtain ⟨ha, hb', hc', -, hd⟩ := make_move_true_board h
  exact ⟨ha, hb', hc', hd⟩

/-- Claim C10, witness: the accepted pawn push (6,4)→(5,4) on a fresh
game, checked on the two touched cells and the untouched (0,0). -/
theorem c10_accepted_move_frame_witness :
    make_move initialGame 6 4 5 4 = some (true, gameAfterPawnMove) ∧
    cell gameAfterPawnMove.board 6 4 = none ∧
    cell gameAfterPawnMove.board 5 4 = cell initialGame.board 6 4 ∧
    cell gameAfterPawnMove.board 0 0 = cell initialGame.board 0 0 := by
  have h : make_move initialGame ((6 : Nat) : Int) ((4 : Nat) : Int)
      ((5 : Nat) : Int) ((4 : Nat) : Int) = some (true, gameAfterPawnMove) := by
    decide
  have t := c10_accepted_move_frame initialGame 6 4 5 4 gameAfterPawnMove h
  exact ⟨h, t.2.1, t.2.2.1, t.2.2.2 0 0 (by decide) (by decide)⟩

end Chess
